import Mathlib

/-!
Shallow embedding of the Rule-Engine repository (src/engine.py,
src/primitives.py, src/broker/account_validation.py) and proofs about it.

Python values are modelled by the inductive type `Val`; Python dicts by
association lists (`List (String × Val)`); Python floats by rationals;
Python exceptions by `Except Err`.
-/

namespace RuleEngine

/-- Python runtime type tags, as compared by `type(x) != type(y)`. -/
inductive PyType where
  | int | float | bool | str | none | list | dict
  deriving Repr, DecidableEq

/-- A Python value as it occurs in the engine: numbers (ints and floats are
distinct Python types), booleans, strings, `None`, lists and string-keyed
dicts. Floats are modelled as rationals. -/
inductive Val where
  | vint (n : ℤ)
  | vfloat (q : ℚ)
  | vbool (b : Bool)
  | vstr (s : String)
  | vnone
  | vlist (xs : List Val)
  | vdict (kvs : List (String × Val))
  deriving Repr

/-- The Python `type(v)` of a modelled value. -/
def Val.pyType : Val → PyType
  | .vint _ => .int
  | .vfloat _ => .float
  | .vbool _ => .bool
  | .vstr _ => .str
  | .vnone => .none
  | .vlist _ => .list
  | .vdict _ => .dict

/-- Python truthiness: `bool(v)`. -/
def pyTruthy : Val → Bool
  | .vint n => n != 0
  | .vfloat q => q != 0
  | .vbool b => b
  | .vstr s => s ≠ ""
  | .vnone => false
  | .vlist xs => !xs.isEmpty
  | .vdict kvs => !kvs.isEmpty

/-- Association-list lookup, modelling `d[k]` / `k in d` on a Python dict
(later insertions shadow earlier ones, see `dictSet`). -/
def dictGet (kvs : List (String × Val)) (k : String) : Option Val :=
  match kvs.find? (fun kv => kv.1 = k) with
  | some kv => some kv.2
  | none => none

/-- Python `d.get(k, default)`. -/
def dictGetD (kvs : List (String × Val)) (k : String) (d : Val) : Val :=
  (dictGet kvs k).getD d

/-- Assignment `d[k] = v` on a Python dict: replace in place if the key exists,
otherwise append (Python dicts preserve insertion order). -/
def dictSet (kvs : List (String × Val)) (k : String) (v : Val) : List (String × Val) :=
  match kvs with
  | [] => [(k, v)]
  | (k', v') :: rest => if k' = k then (k, v) :: rest else (k', v') :: dictSet rest k v

/-- Python `k in d`. -/
def dictHas (kvs : List (String × Val)) (k : String) : Bool :=
  (dictGet kvs k).isSome

/-- Python exceptions raised by the embedded code. -/
inductive Err where
  | valueError (msg : String)
  | typeError (msg : String)
  | keyError (k : String)
  | attributeError (msg : String)
  | indexError (msg : String)
  deriving Repr, DecidableEq

/-- Indexing `d[k]` on a Python dict: `KeyError` when absent. -/
def dictGetE (kvs : List (String × Val)) (k : String) : Except Err Val :=
  match dictGet kvs k with
  | some v => .ok v
  | none => .error (.keyError k)

instance {ε α : Type} [DecidableEq ε] [DecidableEq α] : DecidableEq (Except ε α) :=
  fun x y =>
    match x, y with
    | .ok a, .ok b =>
      if h : a = b then .isTrue (by rw [h]) else .isFalse (by intro hc; cases hc; exact h rfl)
    | .error e, .error f =>
      if h : e = f then .isTrue (by rw [h]) else .isFalse (by intro hc; cases hc; exact h rfl)
    | .ok _, .error _ => .isFalse (by intro hc; cases hc)
    | .error _, .ok _ => .isFalse (by intro hc; cases hc)

def digitsToNat (ds : List Char) : ℕ :=
  ds.foldl (fun a c => a * 10 + (c.toNat - 48)) 0

/-- Strip leading and trailing whitespace from a character list (the
`.strip()` Python applies inside `float(str)`). -/
def trimChars (cs : List Char) : List Char :=
  ((cs.dropWhile Char.isWhitespace).reverse.dropWhile Char.isWhitespace).reverse

/-- Python `float(s)` on a decimal literal: optional sign, digits with an
optional fractional part and an optional decimal exponent; surrounding
whitespace stripped. Returns `none` where Python raises `ValueError`.
(Specials such as `inf`/`nan` and underscore separators do not occur in the
engine's data and are not modelled.) -/
def parseFloat (s : String) : Option ℚ :=
  let cs := trimChars s.toList
  let signAndRest : ℚ × List Char :=
    match cs with
    | '-' :: rest => (-1, rest)
    | '+' :: rest => (1, rest)
    | _ => (1, cs)
  let sign := signAndRest.1
  let cs0 := signAndRest.2
  let intPart := cs0.takeWhile Char.isDigit
  let cs1 := cs0.dropWhile Char.isDigit
  let fracAndRest : List Char × List Char :=
    match cs1 with
    | '.' :: rest => (rest.takeWhile Char.isDigit, rest.dropWhile Char.isDigit)
    | _ => ([], cs1)
  let fracPart := fracAndRest.1
  let cs2 := fracAndRest.2
  if intPart.isEmpty ∧ fracPart.isEmpty then none
  else
    let mantissa : ℚ :=
      (digitsToNat intPart : ℚ) + (digitsToNat fracPart : ℚ) / (10 : ℚ) ^ fracPart.length
    match cs2 with
    | [] => some (sign * mantissa)
    | 'e' :: rest =>
      let esignAndRest : ℤ × List Char :=
        match rest with
        | '-' :: r => (-1, r)
        | '+' :: r => (1, r)
        | _ => (1, rest)
      let eds := esignAndRest.2.takeWhile Char.isDigit
      let rest2 := esignAndRest.2.dropWhile Char.isDigit
      if eds.isEmpty ∨ ¬ rest2.isEmpty then none
      else some (sign * mantissa * (10 : ℚ) ^ (esignAndRest.1 * (digitsToNat eds : ℤ)))
    | 'E' :: rest =>
      let esignAndRest : ℤ × List Char :=
        match rest with
        | '-' :: r => (-1, r)
        | '+' :: r => (1, r)
        | _ => (1, rest)
      let eds := esignAndRest.2.takeWhile Char.isDigit
      let rest2 := esignAndRest.2.dropWhile Char.isDigit
      if eds.isEmpty ∨ ¬ rest2.isEmpty then none
      else some (sign * mantissa * (10 : ℚ) ^ (esignAndRest.1 * (digitsToNat eds : ℤ)))
    | _ => none

/-- Python `float(v)`: numbers pass through, bools become 0/1, strings are
parsed (`ValueError` on failure), everything else raises `TypeError`. -/
def pyFloat : Val → Except Err ℚ
  | .vint n => .ok n
  | .vfloat q => .ok q
  | .vbool b => .ok (if b then 1 else 0)
  | .vstr s =>
    match parseFloat s with
    | some q => .ok q
    | none => .error (.valueError ("could not convert string to float: " ++ s))
  | _ => .error (.typeError "float() argument must be a string or a real number")

/-- Numeric view of a value: Python treats bools as 0/1 in arithmetic and
comparisons; ints and floats compare by value. -/
def Val.asNum? : Val → Option ℚ
  | .vint n => some n
  | .vfloat q => some q
  | .vbool b => some (if b then 1 else 0)
  | _ => none

inductive CmpOp where
  | lt | le | gt | ge
  deriving Repr, DecidableEq

/-- Python ordering comparison (`<`, `<=`, `>`, `>=`): numeric values compare
by value (bools as 0/1), strings lexicographically, anything else raises
`TypeError`. -/
def pyOrd (op : CmpOp) (a b : Val) : Except Err Bool :=
  match a.asNum?, b.asNum? with
  | some x, some y =>
    .ok (match op with
      | .lt => decide (x < y)
      | .le => decide (x ≤ y)
      | .gt => decide (y < x)
      | .ge => decide (y ≤ x))
  | _, _ =>
    match a, b with
    | .vstr s, .vstr t =>
      .ok (match op with
        | .lt => decide (s < t)
        | .le => decide (s ≤ t)
        | .gt => decide (t < s)
        | .ge => decide (t ≤ s))
    | _, _ => .error (.typeError "comparison not supported between operand types")

mutual
/-- Python `==`: numeric values compare by value across int/float/bool,
strings and `None` by identity of content, lists elementwise; mismatched
kinds are unequal (never an exception). Dict equality is modelled
order-sensitively (engine data never compares dicts). -/
def pyEq : Val → Val → Bool
  | .vstr s, .vstr t => s = t
  | .vnone, .vnone => true
  | .vlist xs, .vlist ys => pyEqList xs ys
  | .vdict xs, .vdict ys => pyEqDict xs ys
  | a, b =>
    match a.asNum?, b.asNum? with
    | some x, some y => x = y
    | _, _ => false

def pyEqList : List Val → List Val → Bool
  | [], [] => true
  | x :: xs, y :: ys => pyEq x y && pyEqList xs ys
  | _, _ => false

def pyEqDict : List (String × Val) → List (String × Val) → Bool
  | [], [] => true
  | (k, v) :: xs, (k', v') :: ys => k = k' && pyEq v v' && pyEqDict xs ys
  | _, _ => false
end

/-- Integer view of a value for Python arithmetic: bools are ints. -/
def Val.asInt? : Val → Option ℤ
  | .vint n => some n
  | .vbool b => some (if b then 1 else 0)
  | _ => none

/-- Decimal digit expansion of a rational in `[0,1)`; `none` when the
expansion does not terminate within the fuel. -/
def fracDigitsAux : ℕ → ℚ → List Char → Option (List Char)
  | 0, q, acc => if q = 0 then some acc.reverse else none
  | fuel + 1, q, acc =>
    if q = 0 then some acc.reverse
    else
      let d : ℤ := (q * 10).floor
      fracDigitsAux fuel (q * 10 - d) (Char.ofNat (48 + d.toNat) :: acc)

/-- Python `str(f)` for a float: sign, integer part, point, fractional
digits (at least one, as Python prints `5.0`). Rationals without a
terminating decimal expansion cannot arise from float data; they fall back
to a parenthesized exact fraction that evaluates to the same number. -/
def floatRepr (q : ℚ) : String :=
  let sign := if q < 0 then "-" else ""
  let a := |q|
  let ip : ℤ := a.floor
  match fracDigitsAux 64 (a - ip) [] with
  | some [] => sign ++ toString ip ++ ".0"
  | some ds => sign ++ toString ip ++ "." ++ String.mk ds
  | none => "(" ++ toString q.num ++ "/" ++ toString q.den ++ ")"

/-- Python `str(v)` as used when substituting a context value into an arithmetic
expression string. Lists and dicts print to bracketed text whose brackets
make the restricted arithmetic evaluation fail, as list/dict arithmetic
fails in the source. -/
def pyStr : Val → String
  | .vint n => toString n
  | .vfloat q => floatRepr q
  | .vbool b => if b then "True" else "False"
  | .vstr s => s
  | .vnone => "None"
  | .vlist _ => "[…]"
  | .vdict _ => "⟦…⟧"

def isIdentStart (c : Char) : Bool := c.isAlpha || c = '_'

def isIdentCont (c : Char) : Bool := c.isAlpha || c.isDigit || c = '_'

/-- All matches of the regex `[a-zA-Z_]\w*` in a character list
(`re.findall` in the source), in order of occurrence. Fuel-driven; the fuel
is the list length, which bounds the number of steps. -/
def findIdentsAux : ℕ → List Char → List String
  | 0, _ => []
  | _, [] => []
  | fuel + 1, c :: cs =>
    if isIdentStart c then
      String.mk (c :: cs.takeWhile isIdentCont) :: findIdentsAux fuel (cs.dropWhile isIdentCont)
    else
      findIdentsAux fuel cs

def findIdentifiers (s : String) : List String :=
  findIdentsAux s.toList.length s.toList

/-- Left-to-right, non-overlapping replacement of a non-empty pattern
(`str.replace` in Python). -/
def replaceAllAux (pat rep : List Char) : ℕ → List Char → List Char
  | 0, s => s
  | fuel + 1, s =>
    match s with
    | [] => []
    | c :: cs =>
      if s.take pat.length = pat then rep ++ replaceAllAux pat rep fuel (s.drop pat.length)
      else c :: replaceAllAux pat rep fuel cs

def strReplace (s pat rep : String) : String :=
  if pat.toList.isEmpty then s
  else String.mk (replaceAllAux pat.toList rep.toList s.toList.length s.toList)

/-- Tokens of the restricted arithmetic expressions the source hands to
`eval` after identifier substitution. -/
inductive Tok where
  | num (v : Val)
  | kwTrue | kwFalse | kwNone
  | plus | minus | star | slash | lparen | rparen
  deriving Repr

/-- Tokenizer for the substituted expression string: numbers (int or float
literals), the keywords `True`/`False`/`None`, the four operators and
parentheses. Any other character — including remaining identifiers, which
would be a `NameError` under `eval` with empty globals — fails, which the
source catches and ignores. -/
def tokenizeAux : ℕ → List Char → Option (List Tok)
  | 0, cs => if cs.isEmpty then some [] else none
  | _, [] => some []
  | fuel + 1, c :: cs =>
    if c.isWhitespace then tokenizeAux fuel cs
    else if c = '+' then do pure (.plus :: (← tokenizeAux fuel cs))
    else if c = '-' then do pure (.minus :: (← tokenizeAux fuel cs))
    else if c = '*' then do pure (.star :: (← tokenizeAux fuel cs))
    else if c = '/' then do pure (.slash :: (← tokenizeAux fuel cs))
    else if c = '(' then do pure (.lparen :: (← tokenizeAux fuel cs))
    else if c = ')' then do pure (.rparen :: (← tokenizeAux fuel cs))
    else if c.isDigit ∨ c = '.' then
      let ds := (c :: cs).takeWhile Char.isDigit
      let rest := (c :: cs).dropWhile Char.isDigit
      match rest with
      | '.' :: rest' =>
        let fs := rest'.takeWhile Char.isDigit
        if ds.isEmpty ∧ fs.isEmpty then none
        else do
          let q : ℚ := (digitsToNat ds : ℚ) + (digitsToNat fs : ℚ) / (10 : ℚ) ^ fs.length
          pure (.num (.vfloat q) :: (← tokenizeAux fuel (rest'.dropWhile Char.isDigit)))
      | _ =>
        if ds.isEmpty then none
        else do pure (.num (.vint (digitsToNat ds : ℤ)) :: (← tokenizeAux fuel rest))
    else if isIdentStart c then
      let run := (c :: cs).takeWhile isIdentCont
      let rest := (c :: cs).dropWhile isIdentCont
      if run = "True".toList then do pure (.kwTrue :: (← tokenizeAux fuel rest))
      else if run = "False".toList then do pure (.kwFalse :: (← tokenizeAux fuel rest))
      else if run = "None".toList then do pure (.kwNone :: (← tokenizeAux fuel rest))
      else none
    else none

def tokenize (s : String) : Option (List Tok) :=
  tokenizeAux s.toList.length s.toList

/-- Python `+` on the values arithmetic can produce: ints (bools coerce),
floats; anything else is a `TypeError` under the restricted `eval`. -/
def pyAdd (a b : Val) : Option Val :=
  match a.asInt?, b.asInt? with
  | some x, some y => some (.vint (x + y))
  | _, _ =>
    match a.asNum?, b.asNum? with
    | some x, some y => some (.vfloat (x + y))
    | _, _ => none

def pySub (a b : Val) : Option Val :=
  match a.asInt?, b.asInt? with
  | some x, some y => some (.vint (x - y))
  | _, _ =>
    match a.asNum?, b.asNum? with
    | some x, some y => some (.vfloat (x - y))
    | _, _ => none

def pyMul (a b : Val) : Option Val :=
  match a.asInt?, b.asInt? with
  | some x, some y => some (.vint (x * y))
  | _, _ =>
    match a.asNum?, b.asNum? with
    | some x, some y => some (.vfloat (x * y))
    | _, _ => none

/-- Python `/` is true division: always a float; division by zero raises. -/
def pyDiv (a b : Val) : Option Val :=
  match a.asNum?, b.asNum? with
  | some x, some y => if y = 0 then none else some (.vfloat (x / y))
  | _, _ => none

def pyNeg (a : Val) : Option Val :=
  match a with
  | .vint n => some (.vint (-n))
  | .vfloat q => some (.vfloat (-q))
  | .vbool b => some (.vint (-(if b then 1 else 0)))
  | _ => none

def pyPos (a : Val) : Option Val :=
  match a with
  | .vint _ => some a
  | .vfloat _ => some a
  | .vbool b => some (.vint (if b then 1 else 0))
  | _ => none

mutual
/-- Grammar rule `expr := term (('+'|'-') term)*`, Python precedence for `+ - * /`. -/
def arithExpr : ℕ → List Tok → Option (Val × List Tok)
  | 0, _ => none
  | fuel + 1, ts => do
    let (v, ts1) ← arithTerm fuel ts
    arithExprRest fuel v ts1

def arithExprRest : ℕ → Val → List Tok → Option (Val × List Tok)
  | 0, _, _ => none
  | fuel + 1, v, .plus :: ts => do
    let (w, ts1) ← arithTerm fuel ts
    arithExprRest fuel (← pyAdd v w) ts1
  | fuel + 1, v, .minus :: ts => do
    let (w, ts1) ← arithTerm fuel ts
    arithExprRest fuel (← pySub v w) ts1
  | _ + 1, v, ts => some (v, ts)

def arithTerm : ℕ → List Tok → Option (Val × List Tok)
  | 0, _ => none
  | fuel + 1, ts => do
    let (v, ts1) ← arithUnary fuel ts
    arithTermRest fuel v ts1

def arithTermRest : ℕ → Val → List Tok → Option (Val × List Tok)
  | 0, _, _ => none
  | fuel + 1, v, .star :: ts => do
    let (w, ts1) ← arithUnary fuel ts
    arithTermRest fuel (← pyMul v w) ts1
  | fuel + 1, v, .slash :: ts => do
    let (w, ts1) ← arithUnary fuel ts
    arithTermRest fuel (← pyDiv v w) ts1
  | _ + 1, v, ts => some (v, ts)

def arithUnary : ℕ → List Tok → Option (Val × List Tok)
  | 0, _ => none
  | fuel + 1, .minus :: ts => do
    let (v, ts1) ← arithUnary fuel ts
    pure ((← pyNeg v), ts1)
  | fuel + 1, .plus :: ts => do
    let (v, ts1) ← arithUnary fuel ts
    pure ((← pyPos v), ts1)
  | fuel + 1, ts => arithAtom fuel ts

def arithAtom : ℕ → List Tok → Option (Val × List Tok)
  | 0, _ => none
  | _ + 1, .num v :: ts => some (v, ts)
  | _ + 1, .kwTrue :: ts => some (.vbool true, ts)
  | _ + 1, .kwFalse :: ts => some (.vbool false, ts)
  | _ + 1, .kwNone :: ts => some (.vnone, ts)
  | fuel + 1, .lparen :: ts => do
    let (v, ts1) ← arithExpr fuel ts
    match ts1 with
    | .rparen :: ts2 => some (v, ts2)
    | _ => none
  | _, _ => none
end

/-- The call of `eval` with empty globals on the substituted arithmetic
string: `none` models any exception (syntax error, name error, type error,
division by zero), which the source catches and ignores. -/
def evalArithStr (s : String) : Option Val := do
  let ts ← tokenize s
  let (v, rest) ← arithExpr (4 * ts.length + 8) ts
  if rest.isEmpty then some v else none

/-- Take exactly `n` digit characters. -/
def takeNDigits (n : ℕ) (cs : List Char) : Option (ℕ × List Char) :=
  let ds := cs.take n
  if ds.length = n ∧ ds.all Char.isDigit then some (digitsToNat ds, cs.drop n) else none

def expectChar (c : Char) (cs : List Char) : Option (List Char) :=
  match cs with
  | c' :: rest => if c' = c then some rest else none
  | [] => none

def daysInMonth (y m : ℕ) : ℕ :=
  if m = 2 then
    if y % 4 = 0 ∧ (y % 100 ≠ 0 ∨ y % 400 = 0) then 29 else 28
  else if m = 4 ∨ m = 6 ∨ m = 9 ∨ m = 11 then 30
  else 31

/-- Model of `datetime.fromisoformat` on the shapes the engine feeds it (after the
source rewrites a trailing `Z` to `+00:00`):
`YYYY-MM-DD[TorSpace HH:MM[:SS[.f…f]]][±HH:MM]`. Returns the time-of-day
components `(hour, minute, second, microsecond)`; `none` models
`ValueError`. -/
def parseIsoTime (s : String) : Option (ℕ × ℕ × ℕ × ℕ) := do
  let cs := s.toList
  let (y, cs) ← takeNDigits 4 cs
  let cs ← expectChar '-' cs
  let (mo, cs) ← takeNDigits 2 cs
  let cs ← expectChar '-' cs
  let (d, cs) ← takeNDigits 2 cs
  if ¬ (1 ≤ mo ∧ mo ≤ 12 ∧ 1 ≤ d ∧ d ≤ daysInMonth y mo) then none
  else
    match cs with
    | [] => some (0, 0, 0, 0)
    | sep :: cs =>
      if ¬ (sep = 'T' ∨ sep = ' ') then none
      else do
        let (hh, cs) ← takeNDigits 2 cs
        let cs ← expectChar ':' cs
        let (mm, cs) ← takeNDigits 2 cs
        let secAndRest : Option ((ℕ × ℕ) × List Char) ←
          match cs with
          | ':' :: cs' => do
            let (ss, cs'') ← takeNDigits 2 cs'
            match cs'' with
            | '.' :: cs3 =>
              let fs := cs3.takeWhile Char.isDigit
              if 1 ≤ fs.length ∧ fs.length ≤ 6 then
                some ((ss, digitsToNat fs * 10 ^ (6 - fs.length)), cs3.dropWhile Char.isDigit)
              else none
            | _ => some ((ss, 0), cs'')
          | _ => some ((0, 0), cs)
        let ss := secAndRest.1.1
        let us := secAndRest.1.2
        let cs := secAndRest.2
        let rest ←
          match cs with
          | [] => some ([] : List Char)
          | pm :: cs' =>
            if pm = '+' ∨ pm = '-' then do
              let (oh, cs'') ← takeNDigits 2 cs'
              let cs'' ← expectChar ':' cs''
              let (om, cs3) ← takeNDigits 2 cs''
              if oh ≤ 23 ∧ om ≤ 59 then some cs3 else none
            else none
        if rest.isEmpty ∧ hh ≤ 23 ∧ mm ≤ 59 ∧ ss ≤ 59 then some (hh, mm, ss, us)
        else none

/-- Function `parse_time_to_seconds` from src/primitives.py: ints and floats pass
through as floats (Python's `bool` is an `int` for `isinstance`); ISO-8601
strings give `hour*3600 + minute*60 + second + microsecond/1e6`; any parse
failure or other type yields `0.0`. -/
def parse_time_to_seconds (timeVal : Val) : ℚ :=
  match timeVal with
  | .vint n => n
  | .vfloat q => q
  | .vbool b => if b then 1 else 0
  | .vstr s =>
    match parseIsoTime (strReplace s "Z" "+00:00") with
    | some (h, m, sec, us) => ((h * 3600 + m * 60 + sec : ℕ) : ℚ) + (us : ℚ) / 1000000
    | none => 0
  | _ => 0

/-! ## The primitive evaluators (src/primitives.py) -/

/-- A Python dict with string keys, the shape of both `params` and the
evaluation context. -/
abbrev PyDict := List (String × Val)

/-- Python `d.get(k, default)` where `k` is a runtime value: only string keys can
be present. -/
def ctxGetKeyD (d : PyDict) (key : Val) (dflt : Val) : Val :=
  match key with
  | .vstr s => dictGetD d s dflt
  | _ => dflt

/-- The string-resolution step for the right operand of `comparison`: a
context field reference wins; otherwise, when the string contains one of
`+ - * /`, every identifier is substituted with `str` of its context value
and the result is evaluated by the restricted arithmetic evaluator; on a
missing identifier or any evaluation failure the original string is kept.
(Python iterates the identifier set in unspecified order; modelled in
first-occurrence order, and the substitutions made before a missing
identifier aborts the loop are dropped, which the source also discards.) -/
def resolveRight (right : Val) (context : PyDict) : Val :=
  match right with
  | .vstr s =>
    if dictHas context s then dictGetD context s .vnone
    else if s.toList.any (fun c => c = '+' ∨ c = '-' ∨ c = '*' ∨ c = '/') then
      let vars := (findIdentifiers s).dedup
      if vars.all (fun v => dictHas context v) then
        match evalArithStr (vars.foldl (fun e v => strReplace e v (pyStr (dictGetD context v .vnone))) s) with
        | some v => v
        | none => .vstr s
      else .vstr s
    else .vstr s
  | _ => right

/-- The numeric-coercion block of `comparison_evaluator`: one `try` around
both `float` casts, so a failing cast of the left string also skips the
right cast. -/
def coercePair (l r : Val) : Val × Val :=
  match l with
  | .vstr s =>
    match parseFloat s with
    | some q =>
      match r with
      | .vstr t =>
        match parseFloat t with
        | some p => (.vfloat q, .vfloat p)
        | none => (.vfloat q, r)
      | _ => (.vfloat q, r)
    | none => (l, r)
  | _ =>
    match r with
    | .vstr t =>
      match parseFloat t with
      | some p => (l, .vfloat p)
      | none => (l, r)
    | _ => (l, r)

/-- Operator dispatch shared by `comparison` (applied only to same-typed
operands there): Python comparison by operator name. -/
def applyCmp (op : Val) (a b : Val) : Except Err Bool :=
  match op with
  | .vstr ">" => pyOrd .gt a b
  | .vstr "<" => pyOrd .lt a b
  | .vstr "==" => .ok (pyEq a b)
  | .vstr ">=" => pyOrd .ge a b
  | .vstr "<=" => pyOrd .le a b
  | _ => .error (.valueError "Unknown operator")

/-- Function `comparison_evaluator` from src/primitives.py. -/
def comparison_evaluator (params context : PyDict) : Except Err Bool := do
  let leftKey ← dictGetE params "left"
  let left := ctxGetKeyD context leftKey (.vint 0)
  let right0 ← dictGetE params "right"
  let op ← dictGetE params "op"
  let right1 := resolveRight right0 context
  let lr := coercePair left right1
  if lr.1.pyType ≠ lr.2.pyType then
    return false
  else
    applyCmp op lr.1 lr.2

/-- Contiguous-substring test (`needle in haystack` on strings), fuel-driven. -/
def subListOf (needle hay : List Char) : ℕ → Bool
  | 0 => hay.take needle.length = needle
  | fuel + 1 =>
    if hay.take needle.length = needle then true
    else
      match hay with
      | [] => needle.isEmpty
      | _ :: rest => subListOf needle rest fuel

/-- Python `x in c` for the containers the engine uses. -/
def pyIn (x c : Val) : Except Err Bool :=
  match c with
  | .vlist xs => .ok (xs.any (pyEq x))
  | .vdict kvs =>
    match x with
    | .vstr s => .ok (dictHas kvs s)
    | _ => .ok false
  | .vstr t =>
    match x with
    | .vstr s => .ok (subListOf s.toList t.toList t.toList.length)
    | _ => .error (.typeError "requires string as left operand")
  | _ => .error (.typeError "argument is not iterable")

/-- Function `set_membership_evaluator` from src/primitives.py. -/
def set_membership_evaluator (params context : PyDict) : Except Err Bool := do
  let fieldKey ← dictGetE params "field"
  let value := ctxGetKeyD context fieldKey .vnone
  let allowed := dictGetD params "allowed" (.vlist [])
  let forbidden := dictGetD params "forbidden" (.vlist [])
  if pyTruthy allowed then
    let inAllowed ← pyIn value allowed
    if ¬ inAllowed then
      return false
    else
      if pyTruthy forbidden then
        let inForbidden ← pyIn value forbidden
        return ¬ inForbidden
      else
        return true
  else
    if pyTruthy forbidden then
      let inForbidden ← pyIn value forbidden
      return ¬ inForbidden
    else
      return true

/-- Function `rate_limit_evaluator` from src/primitives.py. -/
def rate_limit_evaluator (params context : PyDict) : Except Err Bool := do
  let metric ← dictGetE params "metric"
  let maxCount ← dictGetE params "max"
  let window ← dictGetE params "window_minutes"
  let historyDict ←
    match dictGetD context "history" (.vdict []) with
    | .vdict h => .ok h
    | _ => .error (.attributeError "object has no attribute get")
  let ts ←
    match ctxGetKeyD historyDict metric (.vlist []) with
    | .vlist xs => .ok xs
    | _ => .error (.typeError "history entry is not iterable")
  let currentSeconds := parse_time_to_seconds (dictGetD context "current_time" .vnone)
  let w ←
    match window.asNum? with
    | some q => .ok q
    | none => .error (.typeError "unsupported operand type for window arithmetic")
  let count := (ts.filter (fun t => decide (currentSeconds - parse_time_to_seconds t ≤ w * 60))).length
  pyOrd .le (.vint count) maxCount

/-- Function `accumulation_evaluator` from src/primitives.py. -/
def accumulation_evaluator (params context : PyDict) : Except Err Bool := do
  let fieldKey ← dictGetE params "field"
  let threshold ← dictGetE params "threshold"
  let op := dictGetD params "op" (.vstr ">=")
  let total := ctxGetKeyD context fieldKey (.vint 0)
  match op with
  | .vstr ">=" => pyOrd .ge total threshold
  | .vstr "<=" => pyOrd .le total threshold
  | .vstr ">" => pyOrd .gt total threshold
  | .vstr "<" => pyOrd .lt total threshold
  | .vstr "==" => .ok (pyEq total threshold)
  | _ => .error (.valueError "Unknown operator")

/-- The scanning loop of `sequence_evaluator`: an in-order, not necessarily
contiguous match of the pattern; an empty pattern indexes past the end on
the first event, as in the source. -/
def seqScan (pat : List Val) : ℕ → List Val → Except Err Bool
  | _, [] => .ok false
  | idx, e :: rest =>
    match pat.get? idx with
    | none => .error (.indexError "list index out of range")
    | some p =>
      if pyEq e p then
        if idx + 1 = pat.length then .ok true else seqScan pat (idx + 1) rest
      else
        seqScan pat idx rest

/-- Function `sequence_evaluator` from src/primitives.py. Events are `(time, event)`
pairs; the optional window filter keeps events within
`window_minutes * 60` seconds of the current time. -/
def sequence_evaluator (params context : PyDict) : Except Err Bool := do
  let patternV ← dictGetE params "pattern"
  let windowV := dictGetD params "window_minutes" (.vint 0)
  let eventsV := dictGetD context "event_history" (.vlist [])
  let events ←
    match eventsV with
    | .vlist xs => .ok xs
    | _ => .error (.typeError "event history is not iterable")
  let pairs ← events.mapM (fun ev =>
    match ev with
    | .vlist [t, e] => Except.ok (t, e)
    | _ => Except.error (.typeError "cannot unpack event"))
  let pairs' ←
    if pyTruthy windowV then do
      let currentSeconds := parse_time_to_seconds (dictGetD context "current_time" .vnone)
      let w ←
        match windowV.asNum? with
        | some q => Except.ok q
        | none => Except.error (.typeError "unsupported operand type for window arithmetic")
      pure (pairs.filter (fun te => decide (currentSeconds - parse_time_to_seconds te.1 ≤ w * 60)))
    else
      pure pairs
  let pat ←
    match patternV with
    | .vlist ps => .ok ps
    | _ => .error (.typeError "pattern is not subscriptable")
  seqScan pat 0 (pairs'.map Prod.snd)

/-- Function `temporal_gate_evaluator` from src/primitives.py. Note the guards are
Python truthiness tests (`if start and end:`, `if cooldown_end:`), not
presence tests. -/
def temporal_gate_evaluator (params context : PyDict) : Except Err Bool := do
  let cur := Val.vfloat (parse_time_to_seconds (dictGetD context "current_time" .vnone))
  let start := dictGetD params "start_time" .vnone
  let stop := dictGetD params "end_time" .vnone
  if pyTruthy start ∧ pyTruthy stop then do
    let b1 ← pyOrd .le start cur
    if b1 then pyOrd .le cur stop else return false
  else
    let cooldownEnd := dictGetD params "cooldown_end" .vnone
    if pyTruthy cooldownEnd then
      pyOrd .ge cur cooldownEnd
    else
      return true

/-- Function `account_comparison_evaluator` from src/primitives.py, including its
double coercion of `value` and the odd `account.get('value', 0)` fallback
for strings containing letters. -/
def account_comparison_evaluator (params context : PyDict) : Except Err Bool := do
  let accountV := dictGetD context "account" (.vdict [])
  let fieldV ← dictGetE params "field"
  let opV ← dictGetE params "op"
  let value0 ← dictGetE params "value"
  let account ←
    match accountV with
    | .vdict a => .ok a
    | _ => .error (.typeError "argument is not a container")
  let fieldPresent :=
    match fieldV with
    | .vstr s => dictHas account s
    | _ => false
  if fieldPresent = false then
    .error (.valueError "Account field not available in context")
  else do
    let value1 ←
      match value0 with
      | .vstr s =>
        if ¬ (s.toList.any Char.isAlpha) then (pyFloat (.vstr s)).map Val.vfloat
        else .ok value0
      | _ => .ok value0
    if value1.pyType = PyType.none then
      return false
    else do
      let value2 ←
        match value1 with
        | .vstr s =>
          if ¬ (s.toList.any Char.isAlpha) then (pyFloat (.vstr s)).map Val.vfloat
          else .ok (dictGetD account "value" (.vint 0))
        | _ => .ok value1
      let fieldName :=
        match fieldV with
        | .vstr s => s
        | _ => ""
      let raw ← dictGetE account fieldName
      let accountValue ← pyFloat raw
      match opV with
      | .vstr ">" => pyOrd .gt (.vfloat accountValue) value2
      | .vstr ">=" => pyOrd .ge (.vfloat accountValue) value2
      | .vstr "<" => pyOrd .lt (.vfloat accountValue) value2
      | .vstr "<=" => pyOrd .le (.vfloat accountValue) value2
      | .vstr "==" => .ok (pyEq (.vfloat accountValue) value2)
      | _ => .error (.valueError "Unknown operator in account_comparison")

/-! ## Account pre-flight validation (src/broker/account_validation.py) -/

/-- The global fields that must always be checked before evaluating a rule. -/
def GLOBAL_ACCOUNT_FIELDS : List String :=
  ["trading_blocked", "trade_suspended_by_user", "pattern_day_trader",
   "daytrade_count", "buying_power", "cash"]

/-- Function `validate_account_for_playbook`: pre-flight account validation.
`fieldsToCheck` defaults (via Python's `or`, so also for an empty list) to
the global safety fields. Missing `daytrade_count`, `buying_power` and
`cash` fields default to `0` via `.get(..., 0)`. Returns the collected
conflict messages; `float()` on a malformed value raises. -/
def validate_account_for_playbook (account : PyDict)
    (fieldsToCheck : Option (List String)) : Except Err (List String) := do
  let fields :=
    match fieldsToCheck with
    | some fs => if fs.isEmpty then GLOBAL_ACCOUNT_FIELDS else fs
    | none => GLOBAL_ACCOUNT_FIELDS
  let c1 : List String :=
    if "trading_blocked" ∈ fields ∧ pyTruthy (dictGetD account "trading_blocked" .vnone) then
      ["Account is trading blocked."]
    else []
  let c2 : List String :=
    if "trade_suspended_by_user" ∈ fields ∧ pyTruthy (dictGetD account "trade_suspended_by_user" .vnone) then
      ["Trades suspended by user."]
    else []
  let c3 ←
    if "pattern_day_trader" ∈ fields ∧ pyTruthy (dictGetD account "pattern_day_trader" .vnone) then
      if "daytrade_count" ∈ fields then do
        let ge ← pyOrd .ge (dictGetD account "daytrade_count" (.vint 0)) (.vint 3)
        pure (if ge then ["Pattern Day Trader limit reached."] else [])
      else pure ([] : List String)
    else pure ([] : List String)
  let c4 ←
    if "buying_power" ∈ fields then do
      let bp ← pyFloat (dictGetD account "buying_power" (.vint 0))
      pure (if bp ≤ 0 then ["No buying power available."] else [])
    else pure ([] : List String)
  let c5 ←
    if "cash" ∈ fields then do
      let ca ← pyFloat (dictGetD account "cash" (.vint 0))
      pure (if ca ≤ 0 then ["No cash available."] else [])
    else pure ([] : List String)
  return c1 ++ c2 ++ c3 ++ c4 ++ c5

/-! ## The engine (src/engine.py) -/

abbrev Evaluator := PyDict → PyDict → Except Err Bool

/-- The primitive registry as populated once at startup: src/main.py
registers exactly these seven primitives. The declared
`required_context`/`required_account_fields` metadata is written during
registration and by `Extension.__init__` but never read on any evaluation
path, so it is not modelled. -/
def registryGet? (name : String) : Option Evaluator :=
  if name = "comparison" then some comparison_evaluator
  else if name = "temporal_gate" then some temporal_gate_evaluator
  else if name = "account_comparison" then some account_comparison_evaluator
  else if name = "set_membership" then some set_membership_evaluator
  else if name = "rate_limit" then some rate_limit_evaluator
  else if name = "accumulation" then some accumulation_evaluator
  else if name = "sequence" then some sequence_evaluator
  else none

/-- An `Extension`: a primitive bound to parameters and an id. -/
structure Extension where
  primitive_name : String
  params : PyDict
  id : String

/-- Constructor `Extension.__init__`: primitive lookup fails fast with `ValueError`
when the name is not registered. -/
def extensionInit (primitiveName : String) (params : PyDict) (extId : String) :
    Except Err Extension :=
  match registryGet? primitiveName with
  | some _ => .ok ⟨primitiveName, params, extId⟩
  | none => .error (.valueError ("Primitive '" ++ primitiveName ++ "' not found in registry."))

/-- Method `Extension.evaluate`: delegates to the primitive. -/
def Extension.evaluate (ext : Extension) (context : PyDict) : Except Err Bool :=
  match registryGet? ext.primitive_name with
  | some ev => ev ext.params context
  | none => .error (.valueError ("Primitive '" ++ ext.primitive_name ++ "' not found in registry."))

/-- A node of the conditions structure: an extension-id string, a dict with
(possibly absent, i.e. empty) `all`/`any`/`none` child lists, or any other
value (which the source evaluates to `False`). -/
inductive CondNode where
  | leaf (extId : String)
  | gates (allNodes anyNodes noneNodes : List CondNode)
  | other
  deriving Repr

/-- Gate kinds, for speaking about a single-kind gate. -/
inductive GateKind where
  | ALL | ANY | NONE
  deriving Repr, DecidableEq

/-- The conditions dict holding exactly one gate list. -/
def mkGate (k : GateKind) (children : List CondNode) : CondNode :=
  match k with
  | .ALL => .gates children [] []
  | .ANY => .gates [] children []
  | .NONE => .gates [] [] children

def resultsGetD (results : List (String × Bool)) (k : String) (d : Bool) : Bool :=
  match results.find? (fun kv => kv.1 = k) with
  | some kv => kv.2
  | none => d

mutual
/-- Method `RuleBlock._evaluate_recursive`: a string node looks its id up in the
results (default `False`); a non-dict node is `False`; a dict node fails on
a non-empty `all` list not all true, a non-empty `any` list with no true
child, or a non-empty `none` list with a true child, and passes
otherwise — so all-empty lists pass vacuously. -/
def evalCond (results : List (String × Bool)) : CondNode → Bool
  | .leaf s => resultsGetD results s false
  | .other => false
  | .gates al an no =>
    if ¬ al.isEmpty ∧ ¬ condAll results al then false
    else if ¬ an.isEmpty ∧ ¬ condAny results an then false
    else if ¬ no.isEmpty ∧ condAny results no then false
    else true

def condAll (results : List (String × Bool)) : List CondNode → Bool
  | [] => true
  | n :: ns => evalCond results n && condAll results ns

def condAny (results : List (String × Bool)) : List CondNode → Bool
  | [] => false
  | n :: ns => evalCond results n || condAny results ns
end

inductive RuleCategory where
  | ENTRY | PROCESS | RISK | DISCIPLINE | EXIT | OVERRIDES
  deriving Repr, DecidableEq

/-- The JSON-shaped extension entry of a rule skeleton. -/
structure ExtensionSkeleton where
  id : String
  primitive : String
  params : PyDict

/-- The JSON-shaped rule skeleton consumed by `RuleBlock.__init__`
(`name` and `conditions` are read with `.get`, extensions with a default of
the empty list). -/
structure RuleSkeleton where
  name : Option String
  conditions : Option CondNode
  extensions : List ExtensionSkeleton

structure RuleBlock where
  name : String
  category : RuleCategory
  extensions : List (String × Extension)
  conditions : CondNode

def assocSet {α : Type} (kvs : List (String × α)) (k : String) (v : α) :
    List (String × α) :=
  match kvs with
  | [] => [(k, v)]
  | (k', v') :: rest => if k' = k then (k, v) :: rest else (k', v') :: assocSet rest k v

/-- Method `RuleBlock._load_extensions`: instantiate each extension (failing fast
on an unknown primitive) and index by id, later duplicates overwriting. -/
def loadExtensions (skels : List ExtensionSkeleton) :
    Except Err (List (String × Extension)) :=
  skels.foldlM
    (fun acc es => do
      let ext ← extensionInit es.primitive es.params es.id
      pure (assocSet acc ext.id ext))
    []

/-- Constructor `RuleBlock.__init__`: loads the extensions; the conditions structure is
stored as-is — leaves are never validated against the extension ids. -/
def ruleBlockInit (category : RuleCategory) (skeleton : RuleSkeleton) :
    Except Err RuleBlock := do
  let exts ← loadExtensions skeleton.extensions
  .ok ⟨skeleton.name.getD "Unnamed Rule", category, exts, skeleton.conditions.getD (.gates [] [] [])⟩

/-- Steps 2–3 of `RuleBlock.evaluate`: evaluate every extension into the
results map, then the condition tree. -/
def ruleBlockCore (rb : RuleBlock) (context : PyDict) : Except Err Bool := do
  let results ← rb.extensions.mapM (fun kv => do
    let b ← kv.2.evaluate context
    pure (kv.1, b))
  pure (evalCond results rb.conditions)

/-- Method `RuleBlock.evaluate`: when the context has a truthy `account` entry,
run the fixed account guard first; any conflict short-circuits the whole
block to `False` without evaluating extensions or tree. -/
def ruleBlockEvaluate (rb : RuleBlock) (context : PyDict) : Except Err Bool :=
  match dictGet context "account" with
  | some accountV =>
    if pyTruthy accountV then
      match accountV with
      | .vdict account => do
        let conflicts ← validate_account_for_playbook account none
        if conflicts.isEmpty then ruleBlockCore rb context else pure false
      | _ => .error (.attributeError "object has no attribute get")
    else ruleBlockCore rb context
  | none => ruleBlockCore rb context

/-! ## ContextBuilder (src/engine.py) -/

/-- The context-request descriptor (`ContextSkeletonSchema` in
src/llm_layer/schemas.py): symbol, market data, account fields. The schema
has no history-metrics field. -/
structure ContextSkeleton where
  symbol : Option String
  market_data : List String
  account_fields : List String

/-- Constructor `ContextBuilder.__init__`: the account provider, the (never used)
user-action provider, and the configured global account fields. Providers
are modelled as pure snapshot functions. -/
structure ContextBuilder where
  account_provider : List String → PyDict
  user_action_provider : Option (List String → PyDict)
  global_account_fields : List String

/-- Method `ContextBuilder.hydrate` (src/engine.py lines 90–118): copy the base
context, attach a truthy skeleton symbol, and — when any account fields are
requested or configured — attach one account snapshot under `account`. The
`history_metrics` local in the source is initialised empty and never used,
and `user_action_provider` is never called, so no `history` entry is ever
attached. The source collects fields into Python sets whose iteration
order is unspecified; modelled as first-occurrence dedup. -/
def dynamicAccountFields (contextSkeleton : Option ContextSkeleton)
    (extensions : Option (List Extension)) : List String :=
  match contextSkeleton with
  | some sk => sk.account_fields.dedup
  | none =>
    match extensions with
    | some exts =>
      (exts.foldl
        (fun acc ext =>
          match dictGet ext.params "field" with
          | some (.vstr s) => acc ++ [s]
          | _ => acc)
        []).dedup
    | none => []

/-- The `context["symbol"]` attachment step of `hydrate` (only for a
skeleton with a truthy symbol). -/
def attachSymbol (baseContext : PyDict) (contextSkeleton : Option ContextSkeleton) :
    PyDict :=
  match contextSkeleton with
  | some sk =>
    match sk.symbol with
    | some sym => if sym ≠ "" then dictSet baseContext "symbol" (.vstr sym) else baseContext
    | none => baseContext
  | none => baseContext

def hydrate (cb : ContextBuilder) (baseContext : PyDict)
    (contextSkeleton : Option ContextSkeleton) (extensions : Option (List Extension)) :
    PyDict :=
  let allFields := (dynamicAccountFields contextSkeleton extensions ++ cb.global_account_fields).dedup
  let context1 := attachSymbol baseContext contextSkeleton
  if allFields.isEmpty then context1
  else dictSet context1 "account" (.vdict (cb.account_provider allFields))

/-! ## RuleConflictChecker (src/engine.py) -/

/-- Method `RuleConflictChecker.check_conflict`: the single-extension static
check, only for the `account_comparison` primitive. -/
def check_conflict (accountSnapshot : PyDict) (ext : Extension) :
    Except Err (List String) :=
  if ext.primitive_name = "account_comparison" then do
    let fieldV ← dictGetE ext.params "field"
    let opV ← dictGetE ext.params "op"
    let value ← dictGetE ext.params "value"
    let accountValue := ctxGetKeyD accountSnapshot fieldV .vnone
    if accountValue.pyType = PyType.none then
      pure ["Account field " ++ pyStr fieldV ++ " missing"]
    else do
      let gtApplies := pyEq opV (.vstr ">") || pyEq opV (.vstr ">=")
      let c1 ← if gtApplies then pyOrd .gt value accountValue else pure false
      if c1 then
        pure ["Rule requires " ++ pyStr fieldV ++ " >= " ++ pyStr value ++
              ", but account has " ++ pyStr accountValue]
      else do
        let ltApplies := pyEq opV (.vstr "<") || pyEq opV (.vstr "<=")
        let c2 ← if ltApplies then pyOrd .lt value accountValue else pure false
        if c2 then
          pure ["Rule requires " ++ pyStr fieldV ++ " <= " ++ pyStr value ++
                ", but account has " ++ pyStr accountValue]
        else
          if pyEq opV (.vstr "==") ∧ ¬ pyEq value accountValue then
            pure ["Rule requires " ++ pyStr fieldV ++ " == " ++ pyStr value ++
                  ", but account has " ++ pyStr accountValue]
          else
            pure []
  else
    pure []

/-- Method `RuleConflictChecker.validate_rule_block`: all conflicts of a block. -/
def validate_rule_block (accountSnapshot : PyDict) (rb : RuleBlock) :
    Except Err (List String) :=
  rb.extensions.foldlM
    (fun acc kv => do
      let cs ← check_conflict accountSnapshot kv.2
      pure (acc ++ cs))
    []

/-! ## Playbook (src/engine.py) -/

structure Playbook where
  name : String
  rules : List RuleBlock

def catFind? (results : List (RuleCategory × List String)) (c : RuleCategory) :
    Option (List String) :=
  match results.find? (fun kv => kv.1 = c) with
  | some kv => some kv.2
  | none => none

def catAppend : List (RuleCategory × List String) → RuleCategory → String →
    List (RuleCategory × List String)
  | [], c, n => [(c, [n])]
  | (c', ns) :: rest, c, n =>
    if c' = c then (c', ns ++ [n]) :: rest else (c', ns) :: catAppend rest c n

/-- The loop body of `Playbook.evaluate`: ensure the category key exists,
evaluate the rule (an exception propagates and aborts the whole
evaluation — there is no per-rule handler in the source), and record the
name when it fired. -/
def playbookEvalAux (context : PyDict) :
    List RuleBlock → List (RuleCategory × List String) →
    Except Err (List (RuleCategory × List String))
  | [], acc => .ok acc
  | rule :: rest, acc => do
    let acc1 := if (catFind? acc rule.category).isSome then acc else acc ++ [(rule.category, [])]
    let b ← ruleBlockEvaluate rule context
    let acc2 := if b then catAppend acc1 rule.category rule.name else acc1
    playbookEvalAux context rest acc2

/-- Method `Playbook.evaluate`: triggered rule names per category. -/
def playbookEvaluate (pb : Playbook) (context : PyDict) :
    Except Err (List (RuleCategory × List String)) :=
  playbookEvalAux context pb.rules []

/-! ## Concrete instances used to exercise the embedding -/

/-- A rule skeleton whose condition tree references the undeclared
extension id `ghost`. -/
def ghostSkeleton : RuleSkeleton :=
  ⟨some "Ghost Leaf Rule", some (.gates [.leaf "ghost"] [] []), []⟩

/-- The rule block `ghostSkeleton` constructs. -/
def ghostRuleBlock : RuleBlock :=
  ⟨"Ghost Leaf Rule", .ENTRY, [], .gates [.leaf "ghost"] [] []⟩

/-- A rule block whose single extension compares the `equity` account
field; evaluating it without an account snapshot raises. -/
def raisingRuleBlock : RuleBlock :=
  ⟨"A", .ENTRY,
   [("acct", ⟨"account_comparison",
     [("field", .vstr "equity"), ("op", .vstr ">"), ("value", .vint 0)], "acct"⟩)],
   .gates [.leaf "acct"] [] []⟩

/-- A rule block whose single extension is an unconditional temporal gate;
it evaluates to true on any context. -/
def passingRuleBlock : RuleBlock :=
  ⟨"B", .ENTRY,
   [("t", ⟨"temporal_gate", [], "t"⟩)],
   .gates [.leaf "t"] [] []⟩

/-- A playbook whose first rule raises and whose second rule fires. -/
def mixedPlaybook : Playbook :=
  ⟨"Mixed", [raisingRuleBlock, passingRuleBlock]⟩

/-- An `account_comparison` extension requiring `buying_power > 5`. -/
def strictExt : Extension :=
  ⟨"account_comparison",
   [("field", .vstr "buying_power"), ("op", .vstr ">"), ("value", .vint 5)], "bp"⟩

/-- A snapshot whose `buying_power` equals the strict threshold of
`strictExt`, making `buying_power > 5` unsatisfiable on it. -/
def equalSnapshot : PyDict := [("buying_power", .vint 5)]

/-! ## Helper lemmas -/

theorem dictGet_nil (k : String) : dictGet [] k = none := rfl

theorem dictGet_dictSet_ne (d : PyDict) (k k' : String) (v : Val) (h : k' ≠ k) :
    dictGet (dictSet d k' v) k = dictGet d k := by
  induction d with
  | nil => simp [dictGet, dictSet, List.find?, h]
  | cons kv rest ih =>
    obtain ⟨k0, v0⟩ := kv
    by_cases h0 : k0 = k'
    · subst h0
      simp only [dictSet, if_pos rfl]
      simp [dictGet, List.find?, h]
    · simp only [dictSet, if_neg h0]
      by_cases hk : k0 = k
      · simp [dictGet, List.find?, hk]
      · simp only [dictGet, List.find?] at ih ⊢
        simp [hk, ih]

theorem dictGet_some_mem {d : PyDict} {k : String} {v : Val}
    (h : dictGet d k = some v) : ∃ kv ∈ d, kv.2 = v := by
  unfold dictGet at h
  cases hfind : d.find? (fun kv => kv.1 = k) with
  | none => rw [hfind] at h; cases h
  | some kv =>
    rw [hfind] at h
    cases h
    exact ⟨kv, List.mem_of_find?_eq_some hfind, rfl⟩

theorem dictGet_some_ne_nil {d : PyDict} {k : String} {v : Val}
    (h : dictGet d k = some v) : d ≠ [] := by
  intro hnil
  subst hnil
  cases h

theorem pyFloat_of_asNum {v : Val} {q : ℚ} (h : v.asNum? = some q) :
    pyFloat v = .ok q := by
  cases v <;> simp [Val.asNum?] at h <;> simp [pyFloat, h]

theorem pyOrd_of_asNum (op : CmpOp) {a b : Val} {x y : ℚ}
    (ha : a.asNum? = some x) (hb : b.asNum? = some y) :
    pyOrd op a b = .ok (match op with
      | .lt => decide (x < y)
      | .le => decide (x ≤ y)
      | .gt => decide (y < x)
      | .ge => decide (y ≤ x)) := by
  unfold pyOrd
  rw [ha, hb]

theorem pyTruthy_of_asNum {v : Val} {q : ℚ} (h : v.asNum? = some q) :
    pyTruthy v = decide (q ≠ 0) := by
  cases v with
  | vint n =>
    simp only [Val.asNum?, Option.some.injEq] at h
    subst h
    by_cases hn : n = 0 <;> simp [pyTruthy, hn]
  | vfloat p =>
    simp only [Val.asNum?, Option.some.injEq] at h
    subst h
    by_cases hq : p = 0 <;> simp [pyTruthy, hq]
  | vbool b =>
    simp only [Val.asNum?, Option.some.injEq] at h
    subst h
    cases b <;> simp [pyTruthy]
  | vstr s => simp [Val.asNum?] at h
  | vnone => simp [Val.asNum?] at h
  | vlist xs => simp [Val.asNum?] at h
  | vdict kvs => simp [Val.asNum?] at h

theorem asNum_vint (n : ℤ) : (Val.vint n).asNum? = some (n : ℚ) := rfl

theorem dictGetD_asNum_isSome (d : PyDict) (k : String) (dflt : Val)
    (hd : ∀ kv ∈ d, (Val.asNum? kv.2).isSome) (hdflt : dflt.asNum?.isSome) :
    (Val.asNum? (dictGetD d k dflt)).isSome := by
  unfold dictGetD
  cases hget : dictGet d k with
  | none => simpa using hdflt
  | some v =>
    obtain ⟨kv, hmem, hv⟩ := dictGet_some_mem hget
    simpa [hv] using hd kv hmem

theorem dictGet_history_set_symbol (d : PyDict) (v : Val) :
    dictGet (dictSet d "symbol" v) "history" = dictGet d "history" :=
  dictGet_dictSet_ne d "history" "symbol" v (by decide)

theorem dictGet_history_set_account (d : PyDict) (v : Val) :
    dictGet (dictSet d "account" v) "history" = dictGet d "history" :=
  dictGet_dictSet_ne d "history" "account" v (by decide)

/-! ## Claim theorems -/

/-- C2: for every gate kind (ALL, ANY, NONE) and every results map, a gate
node with an empty child list evaluates to true — the empty gate is skipped
rather than failed — and the conditions node whose three lists are all
empty also evaluates to true. -/
theorem empty_gate_vacuously_true (k : GateKind) (results : List (String × Bool)) :
    evalCond results (mkGate k []) = true ∧
    evalCond results (.gates [] [] []) = true := by
  cases k <;> exact ⟨by simp [mkGate, evalCond], by simp [evalCond]⟩

/-- C9: when the context has no `account` entry, or maps `account` to the
empty dict, `RuleBlock.evaluate` performs none of the account-guard checks
and returns exactly the extension-plus-condition-tree result. -/
theorem empty_account_bypasses_guard (rb : RuleBlock) (context : PyDict)
    (h : dictGet context "account" = none ∨ dictGet context "account" = some (.vdict [])) :
    ruleBlockEvaluate rb context = ruleBlockCore rb context := by
  unfold ruleBlockEvaluate
  rcases h with h | h <;> rw [h]
  simp [pyTruthy]

/-- Witness for C9 at a concrete context without an account entry. -/
theorem empty_account_bypasses_guard_witness :
    (dictGet [("price", Val.vint 10)] "account" = none ∨
      dictGet [("price", Val.vint 10)] "account" = some (.vdict [])) ∧
    ruleBlockEvaluate passingRuleBlock [("price", Val.vint 10)] =
      ruleBlockCore passingRuleBlock [("price", Val.vint 10)] :=
  ⟨Or.inl rfl, empty_account_bypasses_guard passingRuleBlock [("price", Val.vint 10)] (Or.inl rfl)⟩

/-- C4 counterexample: a rule block whose condition tree references the
undeclared extension id `ghost` is constructed without error, and its
evaluation silently treats the dangling leaf as false. -/
theorem ghost_leaf_constructs_and_evaluates_false :
    ruleBlockInit .ENTRY ghostSkeleton = .ok ghostRuleBlock ∧
    ruleBlockEvaluate ghostRuleBlock [] = .ok false := by
  exact ⟨rfl, by decide⟩

/-- C4 amended: construction never inspects the condition tree's leaf
references (any skeleton whose extensions load is accepted, whatever the
tree), and at evaluation time a leaf whose id is not among the results is
treated as false. -/
theorem undeclared_leaf_deferred_and_false (cat : RuleCategory) (nm : Option String)
    (conds : Option CondNode) (results : List (String × Bool)) (ghostId : String)
    (h : ∀ kv ∈ results, kv.1 ≠ ghostId) :
    (∃ rb, ruleBlockInit cat ⟨nm, conds, []⟩ = .ok rb ∧
      rb.conditions = conds.getD (.gates [] [] [])) ∧
    evalCond results (.leaf ghostId) = false := by
  refine ⟨⟨_, rfl, rfl⟩, ?_⟩
  simp only [evalCond, resultsGetD]
  rw [List.find?_eq_none.mpr]
  intro kv hkv
  simpa using h kv hkv

/-- Witness for C4's amended claim at a concrete skeleton and results map. -/
theorem undeclared_leaf_deferred_and_false_witness :
    (∃ rb, ruleBlockInit .RISK ⟨none, some (.gates [] [.leaf "ghost"] []), []⟩ = .ok rb ∧
      rb.conditions = (some (CondNode.gates [] [.leaf "ghost"] [])).getD (.gates [] [] [])) ∧
    evalCond [("a", true)] (.leaf "ghost") = false :=
  undeclared_leaf_deferred_and_false .RISK none (some (.gates [] [.leaf "ghost"] []))
    [("a", true)] "ghost" (by decide)

/-- C5: `ContextBuilder.hydrate` never consults the user-action provider
(the result is unchanged when that provider is dropped) and never attaches
a `history` entry — whatever `history` the result has came verbatim from
the base context. The source's `history_metrics` local is dead code. -/
theorem hydrate_never_fetches_history (ap : List String → PyDict)
    (uap : Option (List String → PyDict)) (gf : List String) (base : PyDict)
    (skel : Option ContextSkeleton) (exts : Option (List Extension)) :
    hydrate ⟨ap, uap, gf⟩ base skel exts = hydrate ⟨ap, none, gf⟩ base skel exts ∧
    dictGet (hydrate ⟨ap, uap, gf⟩ base skel exts) "history" = dictGet base "history" := by
  refine ⟨rfl, ?_⟩
  have hsym : dictGet (attachSymbol base skel) "history" = dictGet base "history" := by
    cases skel with
    | none => rfl
    | some sk =>
      obtain ⟨symOpt, md, af⟩ := sk
      cases symOpt with
      | none => rfl
      | some sym =>
        unfold attachSymbol
        dsimp only
        split
        · simp [dictGet_history_set_symbol]
        · rfl
  unfold hydrate
  dsimp only
  split
  · exact hsym
  · rw [dictGet_history_set_account]
    exact hsym

/-- The value of the account guard on an account whose `daytrade_count`,
`buying_power` and `cash` slots (after the `.get(..., 0)` defaults) are
numeric: every check runs, and the conflict messages accumulate in source
order. -/
theorem validate_eq (acct : PyDict) {dc bp cash : ℚ}
    (hdc : Val.asNum? (dictGetD acct "daytrade_count" (.vint 0)) = some dc)
    (hbp : Val.asNum? (dictGetD acct "buying_power" (.vint 0)) = some bp)
    (hcash : Val.asNum? (dictGetD acct "cash" (.vint 0)) = some cash) :
    validate_account_for_playbook acct none = .ok (
      (if pyTruthy (dictGetD acct "trading_blocked" .vnone) then ["Account is trading blocked."] else []) ++
      (if pyTruthy (dictGetD acct "trade_suspended_by_user" .vnone) then ["Trades suspended by user."] else []) ++
      (if pyTruthy (dictGetD acct "pattern_day_trader" .vnone) then
        (if 3 ≤ dc then ["Pattern Day Trader limit reached."] else []) else []) ++
      (if bp ≤ 0 then ["No buying power available."] else []) ++
      (if cash ≤ 0 then ["No cash available."] else [])) := by
  unfold validate_account_for_playbook
  simp only [pyOrd_of_asNum .ge hdc (asNum_vint 3), pyFloat_of_asNum hbp,
    pyFloat_of_asNum hcash]
  simp [GLOBAL_ACCOUNT_FIELDS, bind, Except.bind, pure, Except.pure]
  by_cases hpdt : pyTruthy (dictGetD acct "pattern_day_trader" Val.vnone) = true <;>
    simp [hpdt]

/-- C1: a context whose account has numeric-or-boolean values and a `cash`
value that is `<= 0` makes `RuleBlock.evaluate` return false for every
rule block — no extension and no condition tree is consulted — while the
guard reports the violated checks as a message list (among them the cash
conflict) rather than raising. -/
theorem cash_guard_short_circuits (rb : RuleBlock) (context : PyDict)
    (acct : PyDict) (cv : Val) (q : ℚ)
    (hacct : dictGet context "account" = some (.vdict acct))
    (hscal : ∀ kv ∈ acct, (Val.asNum? kv.2).isSome)
    (hcash : dictGet acct "cash" = some cv)
    (hq : cv.asNum? = some q) (hle : q ≤ 0) :
    ∃ conflicts, validate_account_for_playbook acct none = .ok conflicts ∧
      "No cash available." ∈ conflicts ∧
      ruleBlockEvaluate rb context = .ok false := by
  have hgetD : dictGetD acct "cash" (.vint 0) = cv := by
    unfold dictGetD
    rw [hcash]
    rfl
  have hcashNum : Val.asNum? (dictGetD acct "cash" (.vint 0)) = some q := by
    rw [hgetD]
    exact hq
  obtain ⟨dc, hdc⟩ := Option.isSome_iff_exists.mp
    (dictGetD_asNum_isSome acct "daytrade_count" (.vint 0) hscal rfl)
  obtain ⟨bp, hbp⟩ := Option.isSome_iff_exists.mp
    (dictGetD_asNum_isSome acct "buying_power" (.vint 0) hscal rfl)
  have hv := validate_eq acct hdc hbp hcashNum
  refine ⟨_, hv, ?_, ?_⟩
  · simp [hle]
  · unfold ruleBlockEvaluate
    rw [hacct]
    have hne : acct ≠ [] := dictGet_some_ne_nil hcash
    have htr : pyTruthy (.vdict acct) = true := by
      simp [pyTruthy, List.isEmpty_iff, hne]
    simp [htr, hv, bind, Except.bind, pure, Except.pure, hle, List.isEmpty_iff]

/-- Witness for C1 at a concrete context with `cash = -200`. -/
theorem cash_guard_short_circuits_witness :
    ∃ conflicts,
      validate_account_for_playbook [("cash", Val.vint (-200)), ("buying_power", Val.vint 500)] none
        = .ok conflicts ∧
      "No cash available." ∈ conflicts ∧
      ruleBlockEvaluate passingRuleBlock
        [("account", Val.vdict [("cash", Val.vint (-200)), ("buying_power", Val.vint 500)])]
        = .ok false :=
  cash_guard_short_circuits passingRuleBlock _ _ (Val.vint (-200)) (((-200 : ℤ) : ℚ))
    rfl (by decide) rfl rfl (by decide)

/-- C10: a context whose account is non-empty with numeric-or-boolean
values but lacks the `cash` key (or the `buying_power` key) makes
`RuleBlock.evaluate` return false: the guard substitutes 0 for the missing
field, `0 <= 0` registers the corresponding conflict, and the block
short-circuits instead of raising on the missing field. -/
theorem missing_cash_or_buying_power_fails_closed (rb : RuleBlock) (context : PyDict)
    (acct : PyDict)
    (hacct : dictGet context "account" = some (.vdict acct))
    (hne : acct ≠ [])
    (hscal : ∀ kv ∈ acct, (Val.asNum? kv.2).isSome)
    (hmiss : dictGet acct "cash" = none ∨ dictGet acct "buying_power" = none) :
    ∃ conflicts, validate_account_for_playbook acct none = .ok conflicts ∧
      (dictGet acct "cash" = none → "No cash available." ∈ conflicts) ∧
      (dictGet acct "buying_power" = none → "No buying power available." ∈ conflicts) ∧
      conflicts ≠ [] ∧
      ruleBlockEvaluate rb context = .ok false := by
  obtain ⟨dc, hdc⟩ := Option.isSome_iff_exists.mp
    (dictGetD_asNum_isSome acct "daytrade_count" (.vint 0) hscal rfl)
  obtain ⟨bp, hbp⟩ := Option.isSome_iff_exists.mp
    (dictGetD_asNum_isSome acct "buying_power" (.vint 0) hscal rfl)
  obtain ⟨cash, hcash⟩ := Option.isSome_iff_exists.mp
    (dictGetD_asNum_isSome acct "cash" (.vint 0) hscal rfl)
  have hv := validate_eq acct hdc hbp hcash
  have hcash0 : dictGet acct "cash" = none → cash = 0 := by
    intro h0
    have hd : dictGetD acct "cash" (.vint 0) = .vint 0 := by
      unfold dictGetD
      rw [h0]
      rfl
    rw [hd] at hcash
    simp only [Val.asNum?, Int.cast_zero, Option.some.injEq] at hcash
    exact hcash.symm
  have hbp0 : dictGet acct "buying_power" = none → bp = 0 := by
    intro h0
    have hd : dictGetD acct "buying_power" (.vint 0) = .vint 0 := by
      unfold dictGetD
      rw [h0]
      rfl
    rw [hd] at hbp
    simp only [Val.asNum?, Int.cast_zero, Option.some.injEq] at hbp
    exact hbp.symm
  refine ⟨_, hv, ?_, ?_, ?_, ?_⟩
  · intro h0
    simp [hcash0 h0]
  · intro h0
    simp [hbp0 h0]
  · rcases hmiss with h0 | h0
    · simp [hcash0 h0]
    · simp [hbp0 h0]
  · unfold ruleBlockEvaluate
    rw [hacct]
    have htr : pyTruthy (.vdict acct) = true := by
      simp [pyTruthy, List.isEmpty_iff, hne]
    rcases hmiss with h0 | h0
    · simp [htr, hv, bind, Except.bind, pure, Except.pure, hcash0 h0, List.isEmpty_iff]
    · simp [htr, hv, bind, Except.bind, pure, Except.pure, hbp0 h0, List.isEmpty_iff]

/-- Witness for C10 at a concrete non-empty account lacking both `cash`
and `buying_power`. -/
theorem missing_cash_or_buying_power_fails_closed_witness :
    ∃ conflicts,
      validate_account_for_playbook [("trading_blocked", Val.vbool false)] none = .ok conflicts ∧
      (dictGet [("trading_blocked", Val.vbool false)] "cash" = none →
        "No cash available." ∈ conflicts) ∧
      (dictGet [("trading_blocked", Val.vbool false)] "buying_power" = none →
        "No buying power available." ∈ conflicts) ∧
      conflicts ≠ [] ∧
      ruleBlockEvaluate passingRuleBlock
        [("account", Val.vdict [("trading_blocked", Val.vbool false)])] = .ok false :=
  missing_cash_or_buying_power_fails_closed passingRuleBlock _ _
    rfl (List.cons_ne_nil _ _) (by decide) (Or.inl rfl)

/-- C3: in `Playbook.evaluate` there is no per-rule exception isolation: a
concrete playbook whose first rule raises (missing `equity` account field)
aborts with that exception even though its second rule alone evaluates
true, so the sibling is never recorded as triggered. -/
theorem playbook_exception_aborts_siblings :
    ruleBlockEvaluate passingRuleBlock [] = .ok true ∧
    playbookEvaluate mixedPlaybook [] =
      .error (.valueError "Account field not available in context") := by
  exact ⟨by decide, by decide⟩

/-- C6: whenever the left and right operands of the comparison primitive
end up with different Python types after the reference/arithmetic
resolution of the right operand and the numeric coercion attempts, the
evaluator returns false — fail closed — and raises no exception. -/
theorem comparison_type_mismatch_fails_closed (params context : PyDict)
    (lv rv opv : Val)
    (hl : dictGet params "left" = some lv)
    (hr : dictGet params "right" = some rv)
    (hop : dictGet params "op" = some opv)
    (hmismatch :
      (coercePair (ctxGetKeyD context lv (.vint 0)) (resolveRight rv context)).1.pyType ≠
        (coercePair (ctxGetKeyD context lv (.vint 0)) (resolveRight rv context)).2.pyType) :
    comparison_evaluator params context = .ok false := by
  unfold comparison_evaluator
  simp [dictGetE, hl, hr, hop, bind, Except.bind, pure, Except.pure, hmismatch]

/-- Witness for C6 at concrete params: the missing left field defaults to
the int 0, the right operand stays the non-numeric string `abc`, and the
int/str mismatch yields false. -/
theorem comparison_type_mismatch_fails_closed_witness :
    comparison_evaluator [("left", .vstr "rsi"), ("op", .vstr ">"), ("right", .vstr "abc")]
      [] = .ok false :=
  comparison_type_mismatch_fails_closed _ [] (.vstr "rsi") (.vstr "abc") (.vstr ">")
    rfl rfl rfl (by decide)

/-- C7 counterexample: `strictExt` requires `buying_power > 5`; on a
snapshot with `buying_power = 5` the live evaluator confirms the relation
cannot be satisfied (it evaluates false), yet `check_conflict` returns the
empty conflict list — the unsatisfiable strict relation is not flagged. -/
theorem strict_conflict_not_flagged :
    check_conflict equalSnapshot strictExt = .ok [] ∧
    account_comparison_evaluator strictExt.params [("account", .vdict equalSnapshot)]
      = .ok false := by
  exact ⟨by decide, by decide⟩

/-- C7 amended: for an `account_comparison` extension with a numeric
threshold and a snapshot containing the (numeric) field, `check_conflict`
returns a non-empty conflict list iff the snapshot value strictly violates
the non-strict relaxation of the required relation — for `>` and `>=` iff
snapshot < value, for `<` and `<=` iff snapshot > value, for `==` iff
snapshot ≠ value. For `>=`, `<=` and `==` this coincides with the claim's
"relation unsatisfiable on the snapshot"; for strict `>` and `<`, equality
of snapshot and threshold is not flagged. -/
theorem conflict_flag_iff (params snap : PyDict) (extId fieldStr opStr : String)
    (vv av : Val) (v a : ℚ)
    (hf : dictGet params "field" = some (.vstr fieldStr))
    (hop : dictGet params "op" = some (.vstr opStr))
    (hvv : dictGet params "value" = some vv)
    (hvnum : vv.asNum? = some v)
    (ha : dictGet snap fieldStr = some av)
    (hanum : av.asNum? = some a)
    (hopmem : opStr ∈ [">", ">=", "<", "<=", "=="]) :
    ∃ cs, check_conflict snap ⟨"account_comparison", params, extId⟩ = .ok cs ∧
      (cs ≠ [] ↔
        (((opStr = ">" ∨ opStr = ">=") ∧ a < v) ∨
         ((opStr = "<" ∨ opStr = "<=") ∧ v < a) ∨
         (opStr = "==" ∧ v ≠ a))) := by
  have hgetKey : ctxGetKeyD snap (.vstr fieldStr) .vnone = av := by
    simp [ctxGetKeyD, dictGetD, ha]
  have hnotnone : av.pyType ≠ PyType.none := by
    cases av <;> simp [Val.asNum?] at hanum <;> simp [Val.pyType]
  have hgt := pyOrd_of_asNum .gt hvnum hanum
  have hlt := pyOrd_of_asNum .lt hvnum hanum
  have heqnum : pyEq vv av = decide (v = a) := by
    cases vv <;> simp [Val.asNum?] at hvnum <;>
      cases av <;> simp [Val.asNum?] at hanum <;>
        simp [pyEq, Val.asNum?, ← hvnum, ← hanum]
  unfold check_conflict
  simp only [if_pos rfl, dictGetE, hf, hop, hvv, hgetKey, bind, Except.bind, pure,
    Except.pure, if_neg hnotnone, hgt, hlt]
  fin_cases hopmem <;>
    simp [pyEq, heqnum] <;>
    [skip; skip; skip; skip; by_cases hva : v = a] <;>
    first
      | (by_cases hcmp : a < v <;> simp [hcmp])
      | (by_cases hcmp : v < a <;> simp [hcmp])
      | simp [hva]

/-- Witness for C7's amended claim at a concrete strict `>` extension with
threshold 7 against a snapshot value 3. -/
theorem conflict_flag_iff_witness :
    ∃ cs, check_conflict [("bp", Val.vint 3)]
        ⟨"account_comparison",
         [("field", Val.vstr "bp"), ("op", Val.vstr ">"), ("value", Val.vint 7)], "x"⟩ = .ok cs ∧
      (cs ≠ [] ↔
        (((">" : String) = ">" ∨ (">" : String) = ">=") ∧ ((3 : ℤ) : ℚ) < ((7 : ℤ) : ℚ)) ∨
        (((">" : String) = "<" ∨ (">" : String) = "<=") ∧ ((7 : ℤ) : ℚ) < ((3 : ℤ) : ℚ)) ∨
        ((">" : String) = "==" ∧ ((7 : ℤ) : ℚ) ≠ ((3 : ℤ) : ℚ))) :=
  conflict_flag_iff _ _ "x" "bp" ">" (Val.vint 7) (Val.vint 3) _ _
    rfl rfl rfl rfl rfl rfl (by decide)

/-- C8 counterexample: with `start_time = 0` (the boundary value, midnight)
and `end_time = 100` both given, the gate never tests the window: at
current time 200 — outside `[0, 100]` — it passes, because
`if start and end:` is a truthiness test and `0` is falsy. -/
theorem midnight_start_skips_window :
    temporal_gate_evaluator [("start_time", .vint 0), ("end_time", .vint 100)]
      [("current_time", .vint 200)] = .ok true ∧
    ¬ ((0 : ℚ) ≤ parse_time_to_seconds (.vint 200) ∧
       parse_time_to_seconds (.vint 200) ≤ 100) := by
  exact ⟨by decide, by decide⟩

/-- C8 amended: `temporal_gate` gates on truthiness, not presence. When
`start_time` and `end_time` are both given, numeric and non-zero, it
passes iff the parsed current time lies within `[start_time, end_time]`;
when that test fails (a bound absent or zero, e.g. a midnight start), a
given non-zero numeric `cooldown_end` makes it pass iff current time ≥
`cooldown_end`; otherwise it passes unconditionally. -/
theorem temporal_gate_modes (params context : PyDict) :
    (∀ s e : ℚ,
      (dictGetD params "start_time" .vnone).asNum? = some s → s ≠ 0 →
      (dictGetD params "end_time" .vnone).asNum? = some e → e ≠ 0 →
      temporal_gate_evaluator params context =
        .ok (decide (s ≤ parse_time_to_seconds (dictGetD context "current_time" .vnone)) &&
             decide (parse_time_to_seconds (dictGetD context "current_time" .vnone) ≤ e))) ∧
    (∀ cd : ℚ,
      (pyTruthy (dictGetD params "start_time" .vnone) = false ∨
        pyTruthy (dictGetD params "end_time" .vnone) = false) →
      (dictGetD params "cooldown_end" .vnone).asNum? = some cd → cd ≠ 0 →
      temporal_gate_evaluator params context =
        .ok (decide (cd ≤ parse_time_to_seconds (dictGetD context "current_time" .vnone)))) ∧
    ((pyTruthy (dictGetD params "start_time" .vnone) = false ∨
       pyTruthy (dictGetD params "end_time" .vnone) = false) →
      pyTruthy (dictGetD params "cooldown_end" .vnone) = false →
      temporal_gate_evaluator params context = .ok true) := by
  refine ⟨?_, ?_, ?_⟩
  · intro s e hs hs0 he he0
    have hts : pyTruthy (dictGetD params "start_time" .vnone) = true := by
      rw [pyTruthy_of_asNum hs]; simp [hs0]
    have hte : pyTruthy (dictGetD params "end_time" .vnone) = true := by
      rw [pyTruthy_of_asNum he]; simp [he0]
    have h1 := pyOrd_of_asNum .le hs
      (rfl : (Val.vfloat (parse_time_to_seconds (dictGetD context "current_time" .vnone))).asNum?
        = some (parse_time_to_seconds (dictGetD context "current_time" .vnone)))
    have h2 := pyOrd_of_asNum .le
      (rfl : (Val.vfloat (parse_time_to_seconds (dictGetD context "current_time" .vnone))).asNum?
        = some (parse_time_to_seconds (dictGetD context "current_time" .vnone))) he
    unfold temporal_gate_evaluator
    simp only [hts, hte, h1, h2, bind, Except.bind, pure, Except.pure, and_self, if_true,
      true_and, if_pos]
    by_cases hcmp : s ≤ parse_time_to_seconds (dictGetD context "current_time" .vnone) <;>
      simp [hcmp]
  · intro cd hfalse hcd hcd0
    have htc : pyTruthy (dictGetD params "cooldown_end" .vnone) = true := by
      rw [pyTruthy_of_asNum hcd]; simp [hcd0]
    have h3 := pyOrd_of_asNum .ge
      (rfl : (Val.vfloat (parse_time_to_seconds (dictGetD context "current_time" .vnone))).asNum?
        = some (parse_time_to_seconds (dictGetD context "current_time" .vnone))) hcd
    unfold temporal_gate_evaluator
    rcases hfalse with hfs | hfs <;>
      simp [hfs, htc, h3, bind, Except.bind, pure, Except.pure]
  · intro hfalse hcool
    unfold temporal_gate_evaluator
    rcases hfalse with hfs | hfs <;>
      simp [hfs, hcool, bind, Except.bind, pure, Except.pure]

/-- Witness for C8's amended claim at the spec's trading-window scenario:
window 34200–41400 seconds, current time 36000. -/
theorem temporal_gate_modes_witness :
    temporal_gate_evaluator [("start_time", Val.vint 34200), ("end_time", Val.vint 41400)]
      [("current_time", Val.vint 36000)] =
      .ok (decide (((34200 : ℤ) : ℚ) ≤
            parse_time_to_seconds
              (dictGetD [("current_time", Val.vint 36000)] "current_time" .vnone)) &&
           decide (parse_time_to_seconds
              (dictGetD [("current_time", Val.vint 36000)] "current_time" .vnone) ≤
            ((41400 : ℤ) : ℚ))) :=
  (temporal_gate_modes [("start_time", Val.vint 34200), ("end_time", Val.vint 41400)]
    [("current_time", Val.vint 36000)]).1 ((34200 : ℤ) : ℚ) ((41400 : ℤ) : ℚ)
    rfl (by decide) rfl (by decide)

end RuleEngine
